import Mathlib

/-!
Verification of the two magic-number search scripts in `zig-kernel`
(`find_magic.py` and `find_mb2.py`).

Byte buffers are modelled as `List Nat` (each entry one byte of the file).
Printed output is modelled as the list of lines written to stdout, in order.
Python's `bytes.find` (first-occurrence substring search returning `-1` when
absent) is embedded as `bytesFind`, built on the option-valued `findSub?`.
-/

/-- `occursAt data pat i` means the bytes of `data` starting at index `i`
equal `pat` (Python: `data[i:i+len(pat)] == pat`). The slice clips, so the
equality forces `i + pat.length ≤ data.length`. -/
def occursAt (data pat : List Nat) (i : Nat) : Prop :=
  (data.drop i).take pat.length = pat

instance (data pat : List Nat) (i : Nat) : Decidable (occursAt data pat i) := by
  unfold occursAt; exact inferInstance

/-- First occurrence of `pat` in `data`, searching left to right, as Python's
`bytes.find` does before mapping the miss to `-1`. -/
def findSub? (pat : List Nat) : List Nat → Option Nat
  | [] => if ([] : List Nat).take pat.length = pat then some 0 else none
  | d :: rest =>
    if (d :: rest).take pat.length = pat then some 0
    else (findSub? pat rest).map (· + 1)

/-- Python's `data.find(pat)`: index of the first occurrence, or `-1`. -/
def bytesFind (data pat : List Nat) : Int :=
  match findSub? pat data with
  | some i => Int.ofNat i
  | none => -1

/-- `magic = b"\x02\xb0\xad\x1b"` in `find_magic.py`. -/
def magicPattern : List Nat := [0x02, 0xb0, 0xad, 0x1b]

/-- `magic = b"\xd6\x50\x52\xe8"` in `find_mb2.py`. -/
def mb2Pattern : List Nat := [0xd6, 0x50, 0x52, 0xe8]

/-- One hex digit, lowercase, as Python's `bytes.hex` renders a nibble. -/
def hexDigit (n : Nat) : Char :=
  if n < 10 then Char.ofNat (48 + n) else Char.ofNat (87 + n)

/-- The characters of the lowercase hex rendering of a byte string:
two digits per byte, as Python's `bytes.hex()`. -/
def hexChars : List Nat → List Char
  | [] => []
  | b :: bs => hexDigit (b / 16) :: hexDigit (b % 16) :: hexChars bs

/-- Python's `bytes.hex()`: lowercase hexadecimal string, two digits per byte. -/
def bytesHex (bs : List Nat) : String :=
  String.mk (hexChars bs)

/-- `find_magic.py` after the file read: search for `magicPattern` and print
one line. Returns the printed lines in order. -/
def find_magic (data : List Nat) : List String :=
  let offset := bytesFind data magicPattern
  if offset != -1 then
    ["Found magic at offset: " ++ toString offset]
  else
    ["Magic not found"]

/-- `find_mb2.py` after the file read: search for `mb2Pattern`; on a hit print
the offset line and the hex dump of `data[offset : offset + 32]`, otherwise
print the not-found line. Returns the printed lines in order. -/
def find_mb2 (data : List Nat) : List String :=
  let offset := bytesFind data mb2Pattern
  if offset != -1 then
    let header := (data.drop offset.toNat).take 32
    ["Found Multiboot 2 magic at offset: " ++ toString offset,
     "Header: " ++ bytesHex header]
  else
    ["Multiboot 2 magic not found"]

/-- Outcome of `open(path, "rb")` followed by `f.read()`: either the file's
bytes, or an I/O failure (missing or unopenable file). -/
inductive FileResult where
  | contents (data : List Nat)
  | ioError
deriving DecidableEq

/-- A full run of `find_magic.py`. Python's `open` raises `OSError` on a
missing or unopenable file; the script installs no handler, so the exception
propagates and terminates the process before anything is printed, modelled
as `Except.error`. -/
def run_find_magic : FileResult → Except Unit (List String)
  | .contents data => .ok (find_magic data)
  | .ioError => .error ()

/-- A full run of `find_mb2.py`, with the same uncaught-`OSError` semantics. -/
def run_find_mb2 : FileResult → Except Unit (List String)
  | .contents data => .ok (find_mb2 data)
  | .ioError => .error ()

/-- `O` is the first occurrence of `pat` in `data`. -/
def firstOccurAt (data pat : List Nat) (O : Nat) : Prop :=
  occursAt data pat O ∧ ∀ j, j < O → ¬ occursAt data pat j

instance (data pat : List Nat) (O : Nat) : Decidable (firstOccurAt data pat O) := by
  unfold firstOccurAt; exact inferInstance

lemma occursAt_cons_succ (d : Nat) (data pat : List Nat) (i : Nat) :
    occursAt (d :: data) pat (i + 1) ↔ occursAt data pat i := by
  simp [occursAt]

lemma occursAt_nil (pat : List Nat) (i : Nat) : occursAt [] pat i ↔ pat = [] := by
  simp [occursAt, eq_comm]

lemma occursAt_cons_zero (d : Nat) (data pat : List Nat) :
    occursAt (d :: data) pat 0 ↔ (d :: data).take pat.length = pat := by
  simp [occursAt]

/-- `findSub?` returns exactly the first occurrence. -/
theorem findSub?_eq_some_iff (pat data : List Nat) (i : Nat) :
    findSub? pat data = some i ↔ firstOccurAt data pat i := by
  induction data generalizing i with
  | nil =>
    unfold findSub?
    split
    · rename_i h
      have hpat : pat = [] := by simpa using h.symm
      subst hpat
      constructor
      · intro hs
        have hi : i = 0 := by simpa using hs.symm
        subst hi
        exact ⟨by simp [occursAt], by omega⟩
      · rintro ⟨-, hmin⟩
        have hi : i = 0 := by
          by_contra hne
          exact hmin 0 (by omega) (by simp [occursAt])
        simp [hi]
    · rename_i h
      constructor
      · intro hs; cases hs
      · rintro ⟨hocc, -⟩
        have hpat : pat = [] := (occursAt_nil pat i).mp hocc
        subst hpat
        simp at h
  | cons d rest ih =>
    unfold findSub?
    split
    · rename_i h
      constructor
      · intro hs
        have hi : i = 0 := by simpa using hs.symm
        subst hi
        exact ⟨(occursAt_cons_zero d rest pat).mpr h, by omega⟩
      · rintro ⟨hocc, hmin⟩
        have hi : i = 0 := by
          by_contra hne
          exact hmin 0 (by omega) ((occursAt_cons_zero d rest pat).mpr h)
        simp [hi]
    · rename_i h
      rw [Option.map_eq_some']
      constructor
      · rintro ⟨k, hk, rfl⟩
        obtain ⟨hocc, hmin⟩ := (ih k).mp hk
        refine ⟨(occursAt_cons_succ d rest pat k).mpr hocc, ?_⟩
        intro j hj hjocc
        match j with
        | 0 => exact h ((occursAt_cons_zero d rest pat).mp hjocc)
        | j' + 1 =>
          exact hmin j' (by omega) ((occursAt_cons_succ d rest pat j').mp hjocc)
      · rintro ⟨hocc, hmin⟩
        match i with
        | 0 => exact absurd ((occursAt_cons_zero d rest pat).mp hocc) h
        | i' + 1 =>
          refine ⟨i', (ih i').mpr ⟨(occursAt_cons_succ d rest pat i').mp hocc, ?_⟩, rfl⟩
          intro j hj hjocc
          exact hmin (j + 1) (by omega) ((occursAt_cons_succ d rest pat j).mpr hjocc)

/-- Completeness: any occurrence makes the search succeed. -/
theorem findSub?_isSome_of_occurs {data pat : List Nat} {i : Nat}
    (h : occursAt data pat i) : (findSub? pat data).isSome := by
  induction data generalizing i with
  | nil =>
    have hpat : pat = [] := (occursAt_nil pat i).mp h
    subst hpat
    simp [findSub?]
  | cons d rest ih =>
    unfold findSub?
    split
    · rfl
    · rename_i hne
      match i with
      | 0 => exact absurd ((occursAt_cons_zero d rest pat).mp h) hne
      | i' + 1 =>
        have := ih ((occursAt_cons_succ d rest pat i').mp h)
        simpa using this

/-- `findSub?` misses exactly when the pattern occurs nowhere. -/
theorem findSub?_eq_none_iff (pat data : List Nat) :
    findSub? pat data = none ↔ ∀ i, ¬ occursAt data pat i := by
  constructor
  · intro hnone i hocc
    have := findSub?_isSome_of_occurs hocc
    rw [hnone] at this
    cases this
  · intro h
    cases hf : findSub? pat data with
    | none => rfl
    | some k => exact absurd ((findSub?_eq_some_iff pat data k).mp hf).1 (h k)

/-- `bytesFind` reports a nonnegative offset exactly at the first occurrence. -/
theorem bytesFind_eq_ofNat_iff (data pat : List Nat) (O : Nat) :
    bytesFind data pat = Int.ofNat O ↔ firstOccurAt data pat O := by
  cases hf : findSub? pat data with
  | some i =>
    have hi := (findSub?_eq_some_iff pat data i).mp hf
    have hred : bytesFind data pat = Int.ofNat i := by simp [bytesFind, hf]
    rw [hred]
    constructor
    · intro he
      have : i = O := by simpa using he
      exact this ▸ hi
    · rintro ⟨hocc, hmin⟩
      obtain ⟨hocc', hmin'⟩ := hi
      have : i = O := by
        rcases Nat.lt_trichotomy i O with h | h | h
        · exact absurd hocc' (hmin i h)
        · exact h
        · exact absurd hocc (hmin' O h)
      simp [this]
  | none =>
    have hall := (findSub?_eq_none_iff pat data).mp hf
    have hred : bytesFind data pat = -1 := by simp [bytesFind, hf]
    rw [hred]
    constructor
    · intro he
      rw [Int.ofNat_eq_natCast] at he
      omega
    · rintro ⟨hocc, -⟩; exact absurd hocc (hall O)

/-- `bytesFind` returns `-1` exactly when the pattern occurs nowhere. -/
theorem bytesFind_eq_neg_one_iff (data pat : List Nat) :
    bytesFind data pat = -1 ↔ ∀ i, ¬ occursAt data pat i := by
  cases hf : findSub? pat data with
  | some i =>
    have hi := (findSub?_eq_some_iff pat data i).mp hf
    have hred : bytesFind data pat = Int.ofNat i := by simp [bytesFind, hf]
    rw [hred]
    constructor
    · intro he
      rw [Int.ofNat_eq_natCast] at he
      omega
    · intro h; exact absurd hi.1 (h i)
  | none =>
    have hred : bytesFind data pat = -1 := by simp [bytesFind, hf]
    rw [hred]
    simp [findSub?_eq_none_iff pat data |>.mp hf]

lemma toString_int_ofNat (n : Nat) : toString (Int.ofNat n) = toString n := rfl

lemma toString_int_natCast (n : Nat) : toString ((n : Int)) = toString n := rfl

lemma int_ofNat_bne_neg_one (O : Nat) : (Int.ofNat O != -1) = true := by
  simp only [bne_iff_ne, ne_eq]
  intro h
  rw [Int.ofNat_eq_natCast] at h
  omega

/-- On a first occurrence at `O`, `find_magic` prints the offset line. -/
lemma find_magic_found (data : List Nat) (O : Nat)
    (h : firstOccurAt data magicPattern O) :
    find_magic data = ["Found magic at offset: " ++ toString O] := by
  have hb : bytesFind data magicPattern = Int.ofNat O :=
    (bytesFind_eq_ofNat_iff data magicPattern O).mpr h
  simp [find_magic, hb, int_ofNat_bne_neg_one, toString_int_ofNat, toString_int_natCast]

/-- When the pattern occurs nowhere, `find_magic` prints the not-found line. -/
lemma find_magic_not_found (data : List Nat)
    (h : ∀ i, ¬ occursAt data magicPattern i) :
    find_magic data = ["Magic not found"] := by
  have hb : bytesFind data magicPattern = -1 :=
    (bytesFind_eq_neg_one_iff data magicPattern).mpr h
  simp [find_magic, hb]

/-- On a first occurrence at `O`, `find_mb2` prints the offset line and the
hex dump of `data[O : O + 32]`. -/
lemma find_mb2_found (data : List Nat) (O : Nat)
    (h : firstOccurAt data mb2Pattern O) :
    find_mb2 data = ["Found Multiboot 2 magic at offset: " ++ toString O,
                     "Header: " ++ bytesHex ((data.drop O).take 32)] := by
  have hb : bytesFind data mb2Pattern = Int.ofNat O :=
    (bytesFind_eq_ofNat_iff data mb2Pattern O).mpr h
  simp [find_mb2, hb, int_ofNat_bne_neg_one, toString_int_ofNat, toString_int_natCast]

/-- When the pattern occurs nowhere, `find_mb2` prints the not-found line. -/
lemma find_mb2_not_found (data : List Nat)
    (h : ∀ i, ¬ occursAt data mb2Pattern i) :
    find_mb2 data = ["Multiboot 2 magic not found"] := by
  have hb : bytesFind data mb2Pattern = -1 :=
    (bytesFind_eq_neg_one_iff data mb2Pattern).mpr h
  simp [find_mb2, hb]

/-- An occurrence of `pat` at `i` leaves at least `pat.length` bytes after `i`. -/
lemma occursAt_length {data pat : List Nat} {i : Nat} (h : occursAt data pat i) :
    pat.length ≤ data.length - i := by
  have hl := congrArg List.length h
  simp [List.length_take] at hl
  omega

/-- The hex dump of a buffer beginning with the Multiboot2 magic starts with
the magic's own hex digits. -/
lemma bytesHex_mb2_append (t : List Nat) :
    bytesHex (mb2Pattern ++ t) = "d65052e8" ++ bytesHex t := rfl

/-- C1: for every byte buffer and either tool's fixed 4-byte pattern, if the
pattern occurs in the buffer then `data.find` (embedded as `bytesFind`)
reports the smallest index at which the pattern's bytes match: first-match
semantics of the linear substring search. -/
theorem C1_find_first_match (data pat : List Nat) (i : Nat)
    (_hpat : pat = magicPattern ∨ pat = mb2Pattern)
    (hocc : occursAt data pat i) :
    ∃ O, bytesFind data pat = Int.ofNat O ∧ occursAt data pat O ∧
      (∀ j, j < O → ¬ occursAt data pat j) ∧ O ≤ i := by
  have hs := findSub?_isSome_of_occurs hocc
  cases hf : findSub? pat data with
  | none => rw [hf] at hs; cases hs
  | some k =>
    obtain ⟨hk, hmin⟩ := (findSub?_eq_some_iff pat data k).mp hf
    refine ⟨k, by simp [bytesFind, hf], hk, hmin, ?_⟩
    by_contra hlt
    exact hmin i (by omega) hocc

/-- Witness for C1 at the spec's own test vector
`B = 00 00 02 b0 ad 1b 00`, where the magic occurs at index 2. -/
theorem C1_find_first_match_witness :
    (magicPattern = magicPattern ∨ magicPattern = mb2Pattern) ∧
    occursAt [0, 0, 2, 0xb0, 0xad, 0x1b, 0] magicPattern 2 ∧
    ∃ O, bytesFind [0, 0, 2, 0xb0, 0xad, 0x1b, 0] magicPattern = Int.ofNat O ∧
      occursAt [0, 0, 2, 0xb0, 0xad, 0x1b, 0] magicPattern O ∧
      (∀ j, j < O → ¬ occursAt [0, 0, 2, 0xb0, 0xad, 0x1b, 0] magicPattern j) ∧
      O ≤ 2 :=
  ⟨Or.inl rfl, by decide,
   C1_find_first_match [0, 0, 2, 0xb0, 0xad, 0x1b, 0] magicPattern 2
     (Or.inl rfl) (by decide)⟩

/-- C2: if the Multiboot2 pattern first occurs at `O`, `find_mb2` emits the
offset line for `O` followed by the lowercase hex dump of the 32-byte window
at `O` (clipped at the end of the buffer); if the pattern occurs nowhere it
emits the not-found line. -/
theorem C2_find_mb2_output (data : List Nat) :
    (∀ O, firstOccurAt data mb2Pattern O →
      find_mb2 data = ["Found Multiboot 2 magic at offset: " ++ toString O,
                       "Header: " ++ bytesHex ((data.drop O).take 32)]) ∧
    ((∀ i, ¬ occursAt data mb2Pattern i) →
      find_mb2 data = ["Multiboot 2 magic not found"]) :=
  ⟨fun O h => find_mb2_found data O h, fun h => find_mb2_not_found data h⟩

/-- Witness for C2: a hit at offset 0 and a miss. -/
theorem C2_find_mb2_output_witness :
    find_mb2 [0xd6, 0x50, 0x52, 0xe8, 1] =
      ["Found Multiboot 2 magic at offset: 0", "Header: d65052e801"] ∧
    find_mb2 [9] = ["Multiboot 2 magic not found"] :=
  ⟨(C2_find_mb2_output [0xd6, 0x50, 0x52, 0xe8, 1]).1 0 (by decide),
   (C2_find_mb2_output [9]).2 ((findSub?_eq_none_iff mb2Pattern [9]).mp rfl)⟩

/-- C3: if the magic pattern first occurs at `O`, `find_magic` emits the
offset line for `O`; if it occurs nowhere, the not-found line. -/
theorem C3_find_magic_output (data : List Nat) :
    (∀ O, firstOccurAt data magicPattern O →
      find_magic data = ["Found magic at offset: " ++ toString O]) ∧
    ((∀ i, ¬ occursAt data magicPattern i) →
      find_magic data = ["Magic not found"]) :=
  ⟨fun O h => find_magic_found data O h, fun h => find_magic_not_found data h⟩

/-- Witness for C3 at the spec's test vector and a miss. -/
theorem C3_find_magic_output_witness :
    find_magic [0, 0, 2, 0xb0, 0xad, 0x1b, 0] = ["Found magic at offset: 2"] ∧
    find_magic [9] = ["Magic not found"] :=
  ⟨(C3_find_magic_output [0, 0, 2, 0xb0, 0xad, 0x1b, 0]).1 2 (by decide),
   (C3_find_magic_output [9]).2 ((findSub?_eq_none_iff magicPattern [9]).mp rfl)⟩

/-- C4: when a tool's pattern does not occur, the tool prints exactly its
not-found line — a normal printed result, with no offset line. -/
theorem C4_not_found_no_offset (data : List Nat) :
    ((∀ i, ¬ occursAt data magicPattern i) →
      find_magic data = ["Magic not found"]) ∧
    ((∀ i, ¬ occursAt data mb2Pattern i) →
      find_mb2 data = ["Multiboot 2 magic not found"]) :=
  ⟨fun h => find_magic_not_found data h, fun h => find_mb2_not_found data h⟩

/-- Witness for C4 on a buffer containing neither pattern. -/
theorem C4_not_found_no_offset_witness :
    find_magic [1, 2, 3] = ["Magic not found"] ∧
    find_mb2 [1, 2, 3] = ["Multiboot 2 magic not found"] :=
  ⟨(C4_not_found_no_offset [1, 2, 3]).1
     ((findSub?_eq_none_iff magicPattern [1, 2, 3]).mp rfl),
   (C4_not_found_no_offset [1, 2, 3]).2
     ((findSub?_eq_none_iff mb2Pattern [1, 2, 3]).mp rfl)⟩

/-- C5: when the Multiboot2 pattern first occurs at `O` with fewer than 32
bytes remaining, the dumped window is exactly the `data.length - O` trailing
bytes — no padding, no error. -/
theorem C5_tail_clip (data : List Nat) (O : Nat)
    (h : firstOccurAt data mb2Pattern O)
    (hlt : data.length - O < 32) :
    find_mb2 data = ["Found Multiboot 2 magic at offset: " ++ toString O,
                     "Header: " ++ bytesHex (data.drop O)] ∧
    (data.drop O).length = data.length - O := by
  have hlen : (data.drop O).length = data.length - O := by simp
  have htake : (data.drop O).take 32 = data.drop O :=
    List.take_of_length_le (by omega)
  exact ⟨by rw [find_mb2_found data O h, htake], hlen⟩

/-- Witness for C5: the pattern at the very end of a 4-byte buffer. -/
theorem C5_tail_clip_witness :
    find_mb2 [0xd6, 0x50, 0x52, 0xe8] =
      ["Found Multiboot 2 magic at offset: 0", "Header: d65052e8"] ∧
    ([0xd6, 0x50, 0x52, 0xe8].drop 0).length = 4 :=
  C5_tail_clip [0xd6, 0x50, 0x52, 0xe8] 0 (by decide) (by decide)

/-- C6: any reported offset `O` satisfies `O + 4 ≤ data.length` (hence
`O ≤ data.length - 4`), and the 4 bytes at `O` equal the tool's pattern. -/
theorem C6_offset_invariant (data pat : List Nat) (O : Nat)
    (hpat : pat = magicPattern ∨ pat = mb2Pattern)
    (h : bytesFind data pat = Int.ofNat O) :
    O + 4 ≤ data.length ∧ O ≤ data.length - 4 ∧ (data.drop O).take 4 = pat := by
  have hfirst := (bytesFind_eq_ofNat_iff data pat O).mp h
  have hplen : pat.length = 4 := by rcases hpat with rfl | rfl <;> rfl
  have hb : pat.length ≤ data.length - O := occursAt_length hfirst.1
  have hocc := hfirst.1
  unfold occursAt at hocc
  rw [hplen] at hocc hb
  exact ⟨by omega, by omega, hocc⟩

/-- Witness for C6 at the spec's test vector. -/
theorem C6_offset_invariant_witness :
    2 + 4 ≤ ([0, 0, 2, 0xb0, 0xad, 0x1b, 0] : List Nat).length ∧
    2 ≤ ([0, 0, 2, 0xb0, 0xad, 0x1b, 0] : List Nat).length - 4 ∧
    (([0, 0, 2, 0xb0, 0xad, 0x1b, 0] : List Nat).drop 2).take 4 = magicPattern :=
  C6_offset_invariant [0, 0, 2, 0xb0, 0xad, 0x1b, 0] magicPattern 2
    (Or.inl rfl) (by decide)

/-- C7 counterexample: on a buffer containing the Multiboot2 magic,
`find_mb2.py` prints two lines (the offset line and the header dump), not
exactly one line. -/
theorem C7_one_line_counterexample :
    ¬ (find_mb2 [0xd6, 0x50, 0x52, 0xe8]).length = 1 := by decide

/-- C7 amended: `find_magic` always prints exactly one line; `find_mb2`
prints one line when its pattern is absent and two lines (offset line plus
header hex dump) when it is present. -/
theorem C7_line_counts (data : List Nat) :
    (find_magic data).length = 1 ∧
    ((∃ i, occursAt data mb2Pattern i) → (find_mb2 data).length = 2) ∧
    ((∀ i, ¬ occursAt data mb2Pattern i) → (find_mb2 data).length = 1) := by
  refine ⟨?_, ?_, ?_⟩
  · cases hf : findSub? magicPattern data with
    | some k =>
      rw [find_magic_found data k ((findSub?_eq_some_iff magicPattern data k).mp hf)]
      rfl
    | none =>
      rw [find_magic_not_found data ((findSub?_eq_none_iff magicPattern data).mp hf)]
      rfl
  · rintro ⟨i, hi⟩
    have hs := findSub?_isSome_of_occurs hi
    cases hf : findSub? mb2Pattern data with
    | none => rw [hf] at hs; cases hs
    | some k =>
      rw [find_mb2_found data k ((findSub?_eq_some_iff mb2Pattern data k).mp hf)]
      rfl
  · intro h
    rw [find_mb2_not_found data h]
    rfl

/-- Witness for C7's amended statement on a hit and a miss. -/
theorem C7_line_counts_witness :
    (find_magic [7]).length = 1 ∧
    (find_mb2 [0xd6, 0x50, 0x52, 0xe8, 5]).length = 2 ∧
    (find_mb2 [7]).length = 1 :=
  ⟨(C7_line_counts [7]).1,
   (C7_line_counts [0xd6, 0x50, 0x52, 0xe8, 5]).2.1 ⟨0, by decide⟩,
   (C7_line_counts [7]).2.2 ((findSub?_eq_none_iff mb2Pattern [7]).mp rfl)⟩

/-- C8: an I/O failure on `open` propagates uncaught, terminating the run
with no printed output; a pattern miss is not a failure — it is a normal
`ok` result carrying the not-found line. -/
theorem C8_io_error_propagates (data : List Nat) :
    run_find_magic .ioError = .error () ∧
    run_find_mb2 .ioError = .error () ∧
    ((∀ i, ¬ occursAt data magicPattern i) →
      run_find_magic (.contents data) = .ok ["Magic not found"]) ∧
    ((∀ i, ¬ occursAt data mb2Pattern i) →
      run_find_mb2 (.contents data) = .ok ["Multiboot 2 magic not found"]) :=
  ⟨rfl, rfl,
   fun h => by simp [run_find_magic, find_magic_not_found data h],
   fun h => by simp [run_find_mb2, find_mb2_not_found data h]⟩

/-- Witness for C8 on a buffer containing neither pattern. -/
theorem C8_io_error_propagates_witness :
    run_find_magic .ioError = .error () ∧
    run_find_mb2 .ioError = .error () ∧
    run_find_magic (.contents [5]) = .ok ["Magic not found"] ∧
    run_find_mb2 (.contents [5]) = .ok ["Multiboot 2 magic not found"] :=
  ⟨(C8_io_error_propagates [5]).1, (C8_io_error_propagates [5]).2.1,
   (C8_io_error_propagates [5]).2.2.1
     ((findSub?_eq_none_iff magicPattern [5]).mp rfl),
   (C8_io_error_propagates [5]).2.2.2
     ((findSub?_eq_none_iff mb2Pattern [5]).mp rfl)⟩

/-- C9: each tool's output is a pure function of the file's bytes: two runs
on the same `FileResult` produce identical results. -/
theorem C9_deterministic (r : FileResult) :
    run_find_magic r = run_find_magic r ∧ run_find_mb2 r = run_find_mb2 r :=
  ⟨rfl, rfl⟩

/-- C10: whenever `find_mb2` finds the magic, the dumped window begins with
the magic bytes themselves, so the header line starts with
"Header: d65052e8". -/
theorem C10_header_starts_with_magic (data : List Nat) (O : Nat)
    (h : firstOccurAt data mb2Pattern O) :
    ((data.drop O).take 32).take 4 = mb2Pattern ∧
    ∃ rest : String,
      find_mb2 data = ["Found Multiboot 2 magic at offset: " ++ toString O,
                       "Header: d65052e8" ++ rest] := by
  have hocc : (data.drop O).take 4 = mb2Pattern := h.1
  have h4 : ((data.drop O).take 32).take 4 = mb2Pattern := by
    rw [List.take_take]
    norm_num
    exact hocc
  have hsplit : (data.drop O).take 32 =
      mb2Pattern ++ ((data.drop O).take 32).drop 4 := by
    conv_lhs => rw [← List.take_append_drop 4 ((data.drop O).take 32)]
    rw [h4]
  refine ⟨h4, bytesHex (((data.drop O).take 32).drop 4), ?_⟩
  rw [find_mb2_found data O h, hsplit, bytesHex_mb2_append]
  rfl

/-- Witness for C10 with the magic at offset 0 and one trailing byte. -/
theorem C10_header_starts_with_magic_witness :
    (([0xd6, 0x50, 0x52, 0xe8, 1].drop 0).take 32).take 4 = mb2Pattern ∧
    ∃ rest : String,
      find_mb2 [0xd6, 0x50, 0x52, 0xe8, 1] =
        ["Found Multiboot 2 magic at offset: 0", "Header: d65052e8" ++ rest] :=
  C10_header_starts_with_magic [0xd6, 0x50, 0x52, 0xe8, 1] 0 (by decide)
